import Mathlib

/-!
Verification of the slot-booking and registration consistency engine of the
THA-Tournaments backend (src/app.py), as a shallow embedding in Lean 4.

Modelling conventions:
* Python wall-clock instants are integers: seconds since some IST midnight.
  `datetime.replace(hour=h, minute=m, second=0, microsecond=0)` becomes
  `dayStart now + 3600*h + 60*m`, where `dayStart` truncates (towards minus
  infinity) to midnight.  Sub-second precision is immaterial: every branch in
  the source compares instants that differ by whole minutes.
* Wallet balances and fees are Python floats used only for `+`, `-` and `<`;
  they are modelled as integers (every scenario in the repository uses whole
  currency amounts, and no claim depends on fractional values).
* Firestore document ids (users, matches, registrations) are naturals.
  Python string truthiness of a match id maps to `≠ 0` (0 plays the role of
  the empty string); `slot_number` truthiness is `Option.getD 0 ≠ 0`.
* Firestore collections are lists of records; `.add` appends, and a keyed
  `set` overwrites in place via `setAssoc`.
* `int(s)` on a time component is modelled for an optional sign, spaces and
  decimal digits (Python's tolerance of other whitespace or underscores is
  not modelled; no claim depends on such inputs).
-/

/-! ## Time policy (src/app.py lines 164-217) -/

/-- Mirror of Python `str.split(':')` on the character list of a string.
`''.split(':') = ['']`, `':'.split(':') = ['', '']`. -/
def splitCols : List Char → List (List Char)
  | [] => [[]]
  | c :: rest =>
    let r := splitCols rest
    if c = ':' then [] :: r
    else
      match r with
      | h :: t => (c :: h) :: t
      | [] => [[c]]

/-- Strip leading and trailing spaces, as Python `int()` does before parsing. -/
def stripSpaces (l : List Char) : List Char :=
  (((l.dropWhile (· = ' ')).reverse).dropWhile (· = ' ')).reverse

/-- Numeric value of a digit string. -/
def digitsToNat (l : List Char) : Nat :=
  l.foldl (fun a c => 10 * a + (c.toNat - 48)) 0

/-- Mirror of Python `int()` on a component produced by `split(':')`:
optional sign followed by a nonempty run of decimal digits; anything else
raises `ValueError`, modelled as `none`. -/
def pyInt? (l0 : List Char) : Option Int :=
  let l := stripSpaces l0
  match l with
  | '-' :: rest =>
    if rest ≠ [] ∧ rest.all (·.isDigit) then some (-(digitsToNat rest : Int)) else none
  | '+' :: rest =>
    if rest ≠ [] ∧ rest.all (·.isDigit) then some ((digitsToNat rest : Int)) else none
  | _ =>
    if l ≠ [] ∧ l.all (·.isDigit) then some ((digitsToNat l : Int)) else none

/-- Parse a `"HH:MM"` match-time string the way
`match_hour, match_minute = map(int, match_time_str.split(':'))` followed by
`now.replace(hour=match_hour, minute=match_minute, ...)` does: exactly two
components, each an integer, with `replace` raising `ValueError` (hence the
caught-exception fail-closed path) unless `0 ≤ h ≤ 23` and `0 ≤ m ≤ 59`. -/
def parseMatchTime (s : String) : Option (Nat × Nat) :=
  match splitCols s.data with
  | [hs, ms] =>
    match pyInt? hs, pyInt? ms with
    | some h, some m =>
      if 0 ≤ h ∧ h ≤ 23 ∧ 0 ≤ m ∧ m ≤ 59 then some (h.toNat, m.toNat) else none
    | _, _ => none
  | _ => none

/-- Midnight of the civil day containing `now` (seconds since the IST epoch). -/
def dayStart (now : ℤ) : ℤ := 86400 * (now.fdiv 86400)

/-- Today's nominal occurrence of the scheduled time of day `h:m`,
i.e. `now_ist.replace(hour=h, minute=m, second=0, microsecond=0)`. -/
def todayOccurrence (h m : Nat) (now : ℤ) : ℤ :=
  dayStart now + 3600 * h + 60 * m

/-- The next occurrence of `h:m` at or after `now`: today's occurrence,
rolled to tomorrow when today's has already strictly passed. -/
def nextOccurrence (h m : Nat) (now : ℤ) : ℤ :=
  let occ := todayOccurrence h m now
  if occ < now then occ + 86400 else occ

/-- Embedding of `is_match_open_for_registration` (src/app.py lines 164-187):
registration is open while `now` is strictly before 20 minutes ahead of the
next occurrence of the match time; any parsing error yields `False`. -/
def is_match_open_for_registration (mt : String) (now : ℤ) : Bool :=
  match parseMatchTime mt with
  | none => false
  | some (h, m) => decide (now < nextOccurrence h m now - 1200)

/-- Embedding of `is_match_completed_server_side` (src/app.py lines 189-217):
not completed while today's occurrence is still in the future, completed once
`now` is at least one hour past it; parsing errors yield `False`. -/
def is_match_completed_server_side (mt : String) (now : ℤ) : Bool :=
  match parseMatchTime mt with
  | none => false
  | some (h, m) =>
    let occ := todayOccurrence h m now
    if decide (occ > now) then false
    else decide (now ≥ occ + 3600)

/-! ## Data model -/

/-- One document of the `match_slots` collection (the fields the core reads):
scheduled time of day, label, capacity (`max_players`), entry fee, active
flag. -/
structure MatchSlotCfg where
  time : String
  mtype : String
  max_players : Nat
  entry : ℤ
  active : Bool
deriving DecidableEq

/-- One entry of the in-memory `available_slots` dictionary: the capacity
copied from the match configuration and the list of occupied seat numbers
(kept sorted and duplicate-free by the code). -/
structure SlotInfo where
  max_players : Nat
  booked_slots : List Nat
deriving DecidableEq

/-- The in-memory slot cache: `available_slots` as an association list from
match id to `SlotInfo`. -/
abbrev Cache := List (Nat × SlotInfo)

/-- Registration status strings used by the code. -/
inductive RegStatus
  | registered
  | canceled
  | completed
deriving DecidableEq

/-- One document of the `registrations` collection (the fields the core
reads; team/teammate names and the creation timestamp are carried along by
the code but never branched on, so they are omitted).  `slotNumber` is an
`Option` because `get_next_available_slot` can return Python `None`, which
`register_for_match` stores as-is. -/
structure Registration where
  regId : Nat
  matchId : Nat
  matchType : String
  matchTime : String
  leaderUid : Nat
  status : RegStatus
  entryFee : ℤ
  slotNumber : Option Nat
  autoDeleteOnCompletion : Option Bool
  roomCode : String
  roomPassword : String
deriving DecidableEq

/-- Whether the transaction is a credit (`true`) or debit (`false`). -/
inductive TxnType
  | credit
  | debit
deriving DecidableEq

/-- One document of the `transactions` collection (description and server
timestamp omitted: never read back). -/
structure TxnEntry where
  userId : Nat
  amount : ℤ
  ttype : TxnType
  newBalance : ℤ
  referenceId : Option Nat
deriving DecidableEq

/-- The whole state the core operates on: the three Firestore collections,
the wallet documents, the in-memory cache, the id generator for new
registration documents, and the configured `ADMIN_UID`. -/
structure SysState where
  matchSlots : List (Nat × MatchSlotCfg)
  regs : List Registration
  cache : Cache
  wallets : List (Nat × ℤ)
  transactions : List TxnEntry
  nextRegId : Nat
  adminUid : Nat
deriving DecidableEq

/-- Keyed overwrite of an association list (Firestore `set` on a document,
or a Python dict item assignment: replace the entry in place when the key is
present — keys are unique document ids — else append a fresh entry). -/
def setAssoc {α : Type} : List (Nat × α) → Nat → α → List (Nat × α)
  | [], k, v => [(k, v)]
  | p :: rest, k, v => if p.1 = k then (k, v) :: rest else p :: setAssoc rest k v

/-- `is_admin` (src/app.py lines 125-130): direct comparison of the acting
uid against the configured `ADMIN_UID` (the unset-placeholder escape hatch is
not modelled; the admin uid is part of the state). -/
def is_admin (s : SysState) (uid : Option Nat) : Bool :=
  uid = some s.adminUid

/-! ## Slot allocator / slot cache (src/app.py lines 275-313) -/

/-- Python `list.sort()` on seat numbers. -/
def pySort (l : List Nat) : List Nat :=
  List.insertionSort (· ≤ ·) l

/-- Embedding of `get_next_available_slot` (src/app.py lines 275-289): scan
seats `1..max_players` in increasing order and return the first one not in
`booked_slots`; `none` both when every seat is taken and when the match id is
unknown (Python returns `None` in both cases). -/
def get_next_available_slot (cache : Cache) (match_id : Nat) : Option Nat :=
  match cache.lookup match_id with
  | none => none
  | some info =>
    (List.range' 1 info.max_players).find? (fun n => !(info.booked_slots.contains n))

/-- Embedding of `book_slot_in_memory` (src/app.py lines 291-303): append the
seat and re-sort if the match is known and the seat not already present;
return `False` (falling through to the failure print) when the match id is
unknown or the seat is already booked.  The `'booked_slots' not in ...`
initialisation branch is dead: every cache entry is created with the key. -/
def book_slot_in_memory (cache : Cache) (match_id slot_number : Nat) : Cache × Bool :=
  match cache.lookup match_id with
  | none => (cache, false)
  | some info =>
    if info.booked_slots.contains slot_number then (cache, false)
    else
      (setAssoc cache match_id ⟨info.max_players, pySort (info.booked_slots ++ [slot_number])⟩, true)

/-- Embedding of `release_slot_in_memory` (src/app.py lines 305-313): remove
the first occurrence of the seat if present; `False` when the match id is
unknown or the seat is not booked. -/
def release_slot_in_memory (cache : Cache) (match_id slot_number : Nat) : Cache × Bool :=
  match cache.lookup match_id with
  | none => (cache, false)
  | some info =>
    if info.booked_slots.contains slot_number then
      (setAssoc cache match_id ⟨info.max_players, info.booked_slots.erase slot_number⟩, true)
    else (cache, false)

/-- Cache rebuild, the body of `initialize_booked_slots_from_firestore_on_startup`
(src/app.py lines 328-386): clear the cache, load every active match slot with
an empty occupied list, then stream every `status == registered` registration
and record its seat for known match ids (skipping absent seats), finally sort
every occupied list.  The numeric coercion of `slotNumber` always succeeds in
the model because seats are stored as naturals. -/
def rebuild_booked_slots_from_firestore (s : SysState) : Cache :=
  let base : Cache :=
    (s.matchSlots.filter (fun p => p.2.active)).map
      (fun p => (p.1, SlotInfo.mk p.2.max_players []))
  let filled : Cache :=
    s.regs.foldl (fun c r =>
      if r.status = RegStatus.registered then
        match r.slotNumber with
        | some n =>
          match c.lookup r.matchId with
          | some info =>
            if info.booked_slots.contains n then c
            else setAssoc c r.matchId ⟨info.max_players, info.booked_slots ++ [n]⟩
          | none => c
        | none => c
      else c) base
  filled.map (fun p => (p.1, ⟨p.2.max_players, pySort p.2.booked_slots⟩))

/-! ## Wallet ledger (src/app.py lines 393-464) -/

/-- Embedding of `get_user_wallet_balance` (src/app.py lines 393-410): return
the wallet balance, initialising a zero-balance wallet document on first
access (a write with no transaction log entry). -/
def get_user_wallet_balance (s : SysState) (uid : Nat) : SysState × ℤ :=
  match s.wallets.lookup uid with
  | some b => (s, b)
  | none => ({s with wallets := setAssoc s.wallets uid 0}, 0)

/-- Embedding of `update_user_wallet_balance` (src/app.py lines 412-464): an
atomic read-modify-write of the balance.  A debit with
`current_balance < amount` raises `ValueError("Insufficient balance for debit
transaction.")`, caught to return `False` with no mutation; otherwise the new
balance is written and exactly one transaction document carrying it is
appended.  The invalid-`transaction_type` early return is unrepresentable
(the type is an enum here). -/
def update_user_wallet_balance (s : SysState) (uid : Nat) (amount : ℤ)
    (ttype : TxnType) (ref : Option Nat) : SysState × Bool :=
  let current := (s.wallets.lookup uid).getD 0
  match ttype with
  | .credit =>
    let nb := current + amount
    ({s with wallets := setAssoc s.wallets uid nb,
             transactions := s.transactions ++ [⟨uid, amount, .credit, nb, ref⟩]}, true)
  | .debit =>
    if current < amount then (s, false)
    else
      let nb := current - amount
      ({s with wallets := setAssoc s.wallets uid nb,
               transactions := s.transactions ++ [⟨uid, amount, .debit, nb, ref⟩]}, true)

/-! ## Registration workflow (src/app.py lines 634-747) -/

/-- The distinct failure messages `register_for_match` can answer with (each
constructor is one `ValueError` reason or the generic 500 of the
`except Exception` handler).  There is no no-seats constructor: the source
has no such rejection. -/
inductive RegReason
  | slotNotFound
  | windowClosed
  | full
  | insufficientFunds
  | deductFailed
  | unexpected
deriving DecidableEq

/-- Number of `status == registered` registrations of a match, i.e. the
recount query at src/app.py lines 662-665. -/
def regCountL (regs : List Registration) (m : Nat) : Nat :=
  (regs.filter (fun r => decide (r.matchId = m ∧ r.status = RegStatus.registered))).length

/-- `regCountL` on a state. -/
def regCount (s : SysState) (m : Nat) : Nat := regCountL s.regs m

/-- Number of `status == registered` registrations of a `(user, match)`
pair. -/
def userRegCount (s : SysState) (u m : Nat) : Nat :=
  (s.regs.filter (fun r =>
    decide (r.leaderUid = u ∧ r.matchId = m ∧ r.status = RegStatus.registered))).length

/-- Embedding of `register_for_match` (src/app.py lines 634-747), for a
request with all required fields present (the missing-field 400 is outside
the model; participant names are never branched on).  Steps, in source
order: look up the match slot, recount `status == registered` registrations,
check the registration window, check capacity, fetch the wallet balance
(initialising the wallet), check funds, debit the fee, then persist the
registration carrying whatever `get_next_available_slot` returned — the
source never rejects for lack of a seat — and finally mark the seat in the
cache.  When the allocator returned `None`, `book_slot_in_memory` appends the
`None` sentinel and `list.sort()` raises `TypeError` on a non-empty occupied
list, which the route's `except Exception` turns into a generic 500 after the
registration document was already written; on an empty occupied list (or an
unknown cache id) the call survives and the request reports success.  The
sentinel itself is not representable in `List Nat` and is dropped: it is
never equal to any integer seat, so integer membership — all the cache is
ever asked — is unaffected. -/
def register_for_match (s : SysState) (match_slot_id leader_uid : Nat) (now : ℤ) :
    SysState × Option RegReason :=
  match s.matchSlots.lookup match_slot_id with
  | none => (s, some .slotNotFound)
  | some cfg =>
    let capacity := cfg.max_players
    let cnt := regCount s match_slot_id
    let fee := cfg.entry
    if !(is_match_open_for_registration cfg.time now) then (s, some .windowClosed)
    else if capacity ≤ cnt then (s, some .full)
    else
      let s1bal := get_user_wallet_balance s leader_uid
      let s1 := s1bal.1
      let bal := s1bal.2
      if bal < fee then (s1, some .insufficientFunds)
      else
        let s2ok := update_user_wallet_balance s1 leader_uid fee .debit (some match_slot_id)
        let s2 := s2ok.1
        if !s2ok.2 then (s2, some .deductFailed)
        else
          let slotNum := get_next_available_slot s2.cache match_slot_id
          let reg : Registration :=
            { regId := s2.nextRegId
              matchId := match_slot_id
              matchType := cfg.mtype
              matchTime := cfg.time
              leaderUid := leader_uid
              status := .registered
              entryFee := fee
              slotNumber := slotNum
              autoDeleteOnCompletion := none
              roomCode := ""
              roomPassword := "" }
          let s3 := {s2 with regs := s2.regs ++ [reg], nextRegId := s2.nextRegId + 1}
          match slotNum with
          | some n => ((fun c => {s3 with cache := c}) (book_slot_in_memory s3.cache match_slot_id n).1, none)
          | none =>
            match s3.cache.lookup match_slot_id with
            | none => (s3, none)
            | some info =>
              if info.booked_slots.isEmpty then (s3, none)
              else (s3, some .unexpected)

/-! ## Cancellation, deletion (src/app.py lines 851-1000) -/

/-- The failure answers of the cancellation/deletion routes. -/
inductive ActReason
  | notFound
  | unauthorized
  | alreadyCanceled
deriving DecidableEq

/-- Python truthiness of a stored `slotNumber`. -/
def truthySlot (o : Option Nat) : Bool := o.getD 0 ≠ 0

/-- Embedding of the user-facing `update_registration_status`
(src/app.py lines 851-920).  The acting `user_id` must be the registration's
`leaderUid` unless the request carries the admin uid; re-cancelling an
already-canceled registration is refused; the status is then overwritten
with the requested one.  On cancellation the seat is released (when match id
and slot are truthy) and, when an entry fee was charged, the fee is credited
— to the REQUEST's `user_id`, not to the registration's `leaderUid` — with a
transaction referencing the registration.  A failed refund is only logged. -/
def update_registration_status (s : SysState) (registration_id user_id : Nat)
    (new_status : RegStatus) (admin_uid : Option Nat) : SysState × Option ActReason :=
  match s.regs.find? (fun r => decide (r.regId = registration_id)) with
  | none => (s, some .notFound)
  | some reg =>
    if !(is_admin s admin_uid || decide (reg.leaderUid = user_id)) then (s, some .unauthorized)
    else if reg.status = RegStatus.canceled ∧ new_status = RegStatus.canceled then
      (s, some .alreadyCanceled)
    else
      let s1 := {s with regs := s.regs.map (fun r =>
        if r.regId = registration_id then {r with status := new_status} else r)}
      if new_status = RegStatus.canceled then
        let s2 :=
          if reg.matchId ≠ 0 ∧ truthySlot reg.slotNumber then
            {s1 with cache := (release_slot_in_memory s1.cache reg.matchId (reg.slotNumber.getD 0)).1}
          else s1
        let s3 :=
          if 0 < reg.entryFee then
            (update_user_wallet_balance s2 user_id reg.entryFee .credit (some registration_id)).1
          else s2
        (s3, none)
      else (s1, none)

/-- Embedding of the user-facing `delete_registration`
(src/app.py lines 951-1000): after the same authorisation check, the seat is
released when match id and slot are truthy AND the status is not `canceled`
(a `completed` registration's seat IS released), then the document is
removed. -/
def delete_registration (s : SysState) (registration_id user_id : Nat)
    (admin_uid : Option Nat) : SysState × Option ActReason :=
  match s.regs.find? (fun r => decide (r.regId = registration_id)) with
  | none => (s, some .notFound)
  | some reg =>
    if !(is_admin s admin_uid || decide (reg.leaderUid = user_id)) then (s, some .unauthorized)
    else
      let s1 :=
        if reg.matchId ≠ 0 ∧ truthySlot reg.slotNumber ∧ reg.status ≠ RegStatus.canceled then
          {s with cache := (release_slot_in_memory s.cache reg.matchId (reg.slotNumber.getD 0)).1}
        else s
      ({s1 with regs := s1.regs.filter (fun r => !(decide (r.regId = registration_id)))}, none)

/-! ## Daily reset job (src/app.py lines 1591-1626) -/

/-- The per-registration action of the daily reset loop: a
`status == registered` registration with a truthy `matchTime` whose match is
completed is hard-deleted when `data.get('autoDeleteOnCompletion', True)`
holds — the preference DEFAULTS TO TRUE when the field is missing — and
otherwise marked `completed`; every other registration is left alone. -/
def resetOneReg (now : ℤ) (r : Registration) : Option Registration :=
  if r.status = RegStatus.registered ∧ r.matchTime ≠ "" ∧
      is_match_completed_server_side r.matchTime now then
    if r.autoDeleteOnCompletion.getD true then none
    else some {r with status := RegStatus.completed}
  else some r

/-- Embedding of `reset_daily_slots` (src/app.py lines 1591-1626): clear
every cache entry's occupied list, run `resetOneReg` over the registration
store, then fully rebuild the cache from the store. -/
def reset_daily_slots (s : SysState) (now : ℤ) : SysState :=
  let s1 := {s with cache := s.cache.map (fun p : Nat × SlotInfo => (p.1, SlotInfo.mk p.2.max_players []))}
  let s2 := {s1 with regs := s1.regs.filterMap (resetOneReg now)}
  {s2 with cache := rebuild_booked_slots_from_firestore s2}

/-! ## Reachability under the operations named by the capacity claim -/

/-- Decidable capacity invariant: every configured match slot has at most
`max_players` registrations with `status == registered`. -/
def capOKb (s : SysState) : Bool :=
  s.matchSlots.all (fun p => decide (regCountL s.regs p.1 ≤ p.2.max_players))

/-- One application of one of the four operations of the capacity claim:
a registration attempt, a cancellation, a hard deletion, or the daily
reset, with arbitrary request data. -/
inductive Step : SysState → SysState → Prop where
  | register (s : SysState) (m u : Nat) (now : ℤ) :
      Step s (register_for_match s m u now).1
  | cancel (s : SysState) (rid uid : Nat) (adm : Option Nat) :
      Step s (update_registration_status s rid uid RegStatus.canceled adm).1
  | delete (s : SysState) (rid uid : Nat) (adm : Option Nat) :
      Step s (delete_registration s rid uid adm).1
  | reset (s : SysState) (now : ℤ) :
      Step s (reset_daily_slots s now)

/-- Any finite sequence of the four operations. -/
def Steps : SysState → SysState → Prop := Relation.ReflTransGen Step

/-! ## Concrete states used to instantiate the theorems -/

/-- A one-seat free match with an empty store, free entry and an open
window at `now = 13*3600`. -/
def W1 : SysState :=
  { matchSlots := [(1, ⟨"14:00", "solo", 1, 0, true⟩)]
    regs := []
    cache := [(1, ⟨1, []⟩)]
    wallets := []
    transactions := []
    nextRegId := 0
    adminUid := 99 }

/-- `W1` after one successful registration of user 7: the match is full. -/
def W1f : SysState := (register_for_match W1 1 7 46800).1

/-- A two-seat match, free entry, where user 7 already holds a
`status == registered` registration with seat 1. -/
def C2s : SysState :=
  { matchSlots := [(1, ⟨"14:00", "solo", 2, 0, true⟩)]
    regs := [{ regId := 0, matchId := 1, matchType := "solo", matchTime := "14:00",
               leaderUid := 7, status := RegStatus.registered, entryFee := 0,
               slotNumber := some 1, autoDeleteOnCompletion := none,
               roomCode := "", roomPassword := "" }]
    cache := [(1, ⟨2, [1]⟩)]
    wallets := []
    transactions := []
    nextRegId := 1
    adminUid := 99 }

/-- A match whose configuration admits one player and whose store has no
registration, but whose stale cache entry already marks seat 1 occupied, so
the allocator reports no seat. -/
def C3s : SysState :=
  { matchSlots := [(1, ⟨"14:00", "solo", 1, 0, true⟩)]
    regs := []
    cache := [(1, ⟨1, [1]⟩)]
    wallets := []
    transactions := []
    nextRegId := 0
    adminUid := 99 }

/-- A cache whose only entry has capacity 1 but an occupied list holding the
out-of-range seat 2. -/
def C4c : Cache := [(1, ⟨1, [2]⟩)]

/-- A cache with a known match of capacity 2 whose seat 1 is booked. -/
def C5c : Cache := [(1, ⟨2, [1]⟩)]

/-- A wallet state holding 30 for user 7. -/
def W7 : SysState :=
  { matchSlots := []
    regs := []
    cache := []
    wallets := [(7, 30)]
    transactions := []
    nextRegId := 0
    adminUid := 99 }

/-- A paid two-seat match (entry fee 50); user 7 holds balance 50. -/
def C8s : SysState :=
  { matchSlots := [(1, ⟨"14:00", "solo", 2, 50, true⟩)]
    regs := []
    cache := [(1, ⟨2, []⟩)]
    wallets := [(7, 50)]
    transactions := []
    nextRegId := 0
    adminUid := 99 }

/-- `C8s` after user 7 registered for match 1 (fee 50 debited, seat 1). -/
def C8reg : SysState := (register_for_match C8s 1 7 46800).1

/-- A store holding one `status == completed` registration of user 7 whose
seat 1 is still marked occupied in the cache. -/
def C9s : SysState :=
  { matchSlots := [(1, ⟨"14:00", "solo", 2, 0, true⟩)]
    regs := [{ regId := 5, matchId := 1, matchType := "solo", matchTime := "14:00",
               leaderUid := 7, status := RegStatus.completed, entryFee := 0,
               slotNumber := some 1, autoDeleteOnCompletion := none,
               roomCode := "", roomPassword := "" }]
    cache := [(1, ⟨2, [1]⟩)]
    wallets := []
    transactions := []
    nextRegId := 6
    adminUid := 99 }

/-- A store holding one `status == registered` registration of a completed
match (`now = 16*3600` is more than an hour past 14:00) whose document lacks
the `autoDeleteOnCompletion` field, and one whose field is `false`. -/
def C10s : SysState :=
  { matchSlots := [(1, ⟨"14:00", "solo", 2, 0, true⟩)]
    regs := [{ regId := 5, matchId := 1, matchType := "solo", matchTime := "14:00",
               leaderUid := 7, status := RegStatus.registered, entryFee := 0,
               slotNumber := some 1, autoDeleteOnCompletion := none,
               roomCode := "", roomPassword := "" },
             { regId := 6, matchId := 1, matchType := "solo", matchTime := "14:00",
               leaderUid := 8, status := RegStatus.registered, entryFee := 0,
               slotNumber := some 2, autoDeleteOnCompletion := some false,
               roomCode := "", roomPassword := "" }]
    cache := [(1, ⟨2, [1, 2]⟩)]
    wallets := []
    transactions := []
    nextRegId := 7
    adminUid := 99 }

/-! ## Association-list and counting lemmas -/

theorem lookup_setAssoc_self {α : Type} (l : List (Nat × α)) (k : Nat) (v : α) :
    (setAssoc l k v).lookup k = some v := by
  induction l with
  | nil => simp [setAssoc, List.lookup]
  | cons p rest ih =>
    obtain ⟨pk, pv⟩ := p
    by_cases h : pk = k
    · subst h
      simp [setAssoc, List.lookup]
    · have hb : (k == pk) = false := by
        simp only [beq_eq_false_iff_ne, ne_eq]
        exact fun hk => h hk.symm
      simp only [setAssoc, h, if_false]
      rw [List.lookup_cons]
      simp [hb, ih]

theorem lookup_setAssoc_ne {α : Type} (l : List (Nat × α)) (k k2 : Nat) (v : α)
    (h : k2 ≠ k) : (setAssoc l k v).lookup k2 = l.lookup k2 := by
  have hb : (k2 == k) = false := by simp only [beq_eq_false_iff_ne, ne_eq]; exact h
  induction l with
  | nil => simp [setAssoc, List.lookup, hb]
  | cons p rest ih =>
    obtain ⟨pk, pv⟩ := p
    by_cases hp : pk = k
    · subst hp
      rw [show setAssoc ((pk, pv) :: rest) pk v = (pk, v) :: rest from by
        rw [setAssoc, if_pos rfl]]
      rw [List.lookup_cons, List.lookup_cons]
      simp [hb]
    · simp only [setAssoc, hp, if_false]
      rw [List.lookup_cons, List.lookup_cons]
      cases hk2 : (k2 == pk) <;> simp [ih]

theorem lookup_eq_of_mem_of_nodup {α : Type} {l : List (Nat × α)} {k : Nat} {c : α}
    (hnd : (l.map Prod.fst).Nodup) (h : (k, c) ∈ l) : l.lookup k = some c := by
  induction l with
  | nil => simp at h
  | cons p rest ih =>
    rcases List.mem_cons.1 h with h1 | h1
    · subst h1
      simp [List.lookup_cons]
    · have hnd2 : (rest.map Prod.fst).Nodup := (List.nodup_cons.1 hnd).2
      have hkp : (k == p.1) = false := by
        simp only [beq_eq_false_iff_ne, ne_eq]
        intro hk
        have hm : k ∈ rest.map Prod.fst := by
          have := List.mem_map_of_mem Prod.fst h1
          simpa using this
        exact (List.nodup_cons.1 hnd).1 (hk ▸ hm)
      obtain ⟨pk, pv⟩ := p
      rw [List.lookup_cons]
      simp only at hkp
      simp [hkp, ih hnd2 h1]

theorem length_filter_le_of_imp {α : Type} (p q : α → Bool)
    (h : ∀ a, p a = true → q a = true) (l : List α) :
    (l.filter p).length ≤ (l.filter q).length := by
  induction l with
  | nil => simp
  | cons a l ih =>
    rw [List.filter_cons, List.filter_cons]
    cases hp : p a with
    | true =>
      rw [h a hp]
      simpa using Nat.succ_le_succ ih
    | false =>
      cases hq : q a with
      | true => simpa using Nat.le_succ_of_le ih
      | false => simpa using ih

theorem length_filter_map_le {α : Type} (f : α → α) (p : α → Bool)
    (h : ∀ a, p (f a) = true → p a = true) (l : List α) :
    ((l.map f).filter p).length ≤ (l.filter p).length := by
  induction l with
  | nil => simp
  | cons a l ih =>
    rw [List.map_cons, List.filter_cons, List.filter_cons]
    cases hp : p (f a) with
    | true =>
      rw [h a hp]
      simpa using Nat.succ_le_succ ih
    | false =>
      cases hq : p a with
      | true => simpa using Nat.le_succ_of_le ih
      | false => simpa using ih

theorem length_filter_filterMap_le {α : Type} (f : α → Option α) (p : α → Bool)
    (h : ∀ a b, f a = some b → p b = true → p a = true) (l : List α) :
    ((l.filterMap f).filter p).length ≤ (l.filter p).length := by
  induction l with
  | nil => simp
  | cons a l ih =>
    rw [List.filterMap_cons, List.filter_cons]
    cases hfa : f a with
    | none =>
      cases hq : p a with
      | true => simpa using Nat.le_succ_of_le ih
      | false => simpa using ih
    | some b =>
      rw [List.filter_cons]
      cases hp : p b with
      | true =>
        rw [h a b hfa hp]
        simpa using Nat.succ_le_succ ih
      | false =>
        cases hq : p a with
        | true => simpa using Nat.le_succ_of_le ih
        | false => simpa using ih

theorem regCountL_append (l : List Registration) (r : Registration) (m : Nat) :
    regCountL (l ++ [r]) m =
      regCountL l m +
        (if r.matchId = m ∧ r.status = RegStatus.registered then 1 else 0) := by
  simp only [regCountL, List.filter_append, List.length_append]
  by_cases h : r.matchId = m ∧ r.status = RegStatus.registered
  · simp [h]
  · simp [h]

/-! ## Unfolding lemmas for the wallet helpers and the registration flow -/

theorem get_wallet_some {s : SysState} {u : Nat} {b : ℤ}
    (h : s.wallets.lookup u = some b) : get_user_wallet_balance s u = (s, b) := by
  unfold get_user_wallet_balance
  rw [h]

theorem get_wallet_none {s : SysState} {u : Nat}
    (h : s.wallets.lookup u = none) :
    get_user_wallet_balance s u = ({s with wallets := setAssoc s.wallets u 0}, 0) := by
  unfold get_user_wallet_balance
  rw [h]

theorem update_wallet_debit_fail {s : SysState} {u : Nat} {amt : ℤ} {ref : Option Nat}
    (h : (s.wallets.lookup u).getD 0 < amt) :
    update_user_wallet_balance s u amt TxnType.debit ref = (s, false) := by
  unfold update_user_wallet_balance
  simp [h]

theorem update_wallet_debit_ok {s : SysState} {u : Nat} {amt : ℤ} {ref : Option Nat}
    (h : ¬((s.wallets.lookup u).getD 0 < amt)) :
    update_user_wallet_balance s u amt TxnType.debit ref =
      ({s with
          wallets := setAssoc s.wallets u ((s.wallets.lookup u).getD 0 - amt),
          transactions := s.transactions ++
            [⟨u, amt, TxnType.debit, (s.wallets.lookup u).getD 0 - amt, ref⟩]}, true) := by
  unfold update_user_wallet_balance
  simp [h]

theorem update_wallet_credit (s : SysState) (u : Nat) (amt : ℤ) (ref : Option Nat) :
    update_user_wallet_balance s u amt TxnType.credit ref =
      ({s with
          wallets := setAssoc s.wallets u ((s.wallets.lookup u).getD 0 + amt),
          transactions := s.transactions ++
            [⟨u, amt, TxnType.credit, (s.wallets.lookup u).getD 0 + amt, ref⟩]}, true) := by
  unfold update_user_wallet_balance
  rfl

theorem register_slotNotFound {s : SysState} {m u : Nat} {now : ℤ}
    (h : s.matchSlots.lookup m = none) :
    register_for_match s m u now = (s, some RegReason.slotNotFound) := by
  unfold register_for_match
  rw [h]

theorem register_windowClosed {s : SysState} {m u : Nat} {now : ℤ} {cfg : MatchSlotCfg}
    (hcfg : s.matchSlots.lookup m = some cfg)
    (h : is_match_open_for_registration cfg.time now = false) :
    register_for_match s m u now = (s, some RegReason.windowClosed) := by
  unfold register_for_match
  rw [hcfg]
  simp [h]

theorem register_full {s : SysState} {m u : Nat} {now : ℤ} {cfg : MatchSlotCfg}
    (hcfg : s.matchSlots.lookup m = some cfg)
    (hopen : is_match_open_for_registration cfg.time now = true)
    (hcap : cfg.max_players ≤ regCount s m) :
    register_for_match s m u now = (s, some RegReason.full) := by
  unfold register_for_match
  rw [hcfg]
  simp [hopen, hcap]

theorem get_wallet_balance_eq (s : SysState) (u : Nat) :
    (get_user_wallet_balance s u).2 = (s.wallets.lookup u).getD 0 := by
  unfold get_user_wallet_balance
  cases hw : s.wallets.lookup u <;> simp

theorem register_insufficient {s : SysState} {m u : Nat} {now : ℤ} {cfg : MatchSlotCfg}
    (hcfg : s.matchSlots.lookup m = some cfg)
    (hopen : is_match_open_for_registration cfg.time now = true)
    (hcap : regCount s m < cfg.max_players)
    (hbal : (s.wallets.lookup u).getD 0 < cfg.entry) :
    register_for_match s m u now =
      ((get_user_wallet_balance s u).1, some RegReason.insufficientFunds) := by
  unfold register_for_match
  rw [hcfg]
  dsimp only
  rw [if_neg (by simp [hopen]), if_neg (Nat.not_le.2 hcap),
    if_pos (by rw [get_wallet_balance_eq]; exact hbal)]

theorem register_proceed {s : SysState} {m u : Nat} {now : ℤ} {cfg : MatchSlotCfg}
    (hcfg : s.matchSlots.lookup m = some cfg)
    (hopen : is_match_open_for_registration cfg.time now = true)
    (hcap : regCount s m < cfg.max_players)
    (hbal : cfg.entry ≤ (s.wallets.lookup u).getD 0) :
    register_for_match s m u now =
      (let bal0 := (s.wallets.lookup u).getD 0
       let slotNum := get_next_available_slot s.cache m
       let s3 : SysState :=
         { matchSlots := s.matchSlots
           regs := s.regs ++ [⟨s.nextRegId, m, cfg.mtype, cfg.time, u, RegStatus.registered,
                               cfg.entry, slotNum, none, "", ""⟩]
           cache := s.cache
           wallets := setAssoc (get_user_wallet_balance s u).1.wallets u (bal0 - cfg.entry)
           transactions := s.transactions ++
             [⟨u, cfg.entry, TxnType.debit, bal0 - cfg.entry, some m⟩]
           nextRegId := s.nextRegId + 1
           adminUid := s.adminUid }
       match slotNum with
       | some n => ({s3 with cache := (book_slot_in_memory s.cache m n).1}, none)
       | none =>
         match s.cache.lookup m with
         | none => (s3, none)
         | some info =>
           if info.booked_slots.isEmpty then (s3, none)
           else (s3, some RegReason.unexpected)) := by
  have h2 : (get_user_wallet_balance s u).1.wallets.lookup u
      = some ((s.wallets.lookup u).getD 0) := by
    unfold get_user_wallet_balance
    cases hw : s.wallets.lookup u with
    | some b => simpa using hw
    | none => simpa using lookup_setAssoc_self s.wallets u 0
  have h1 : (get_user_wallet_balance s u).1
      = {s with wallets := (get_user_wallet_balance s u).1.wallets} := by
    unfold get_user_wallet_balance
    cases hw : s.wallets.lookup u <;> rfl
  unfold register_for_match
  rw [hcfg]
  dsimp only
  rw [if_neg (by simp [hopen]), if_neg (Nat.not_le.2 hcap),
    if_neg (not_lt.2 (by rw [get_wallet_balance_eq]; exact hbal))]
  rw [update_wallet_debit_ok (by rw [h2]; exact not_lt.2 (by simpa using hbal))]
  rw [h2, h1]
  rfl

theorem update_wallet_fields (s : SysState) (u : Nat) (amt : ℤ) (ty : TxnType)
    (ref : Option Nat) :
    (update_user_wallet_balance s u amt ty ref).1.matchSlots = s.matchSlots
    ∧ (update_user_wallet_balance s u amt ty ref).1.regs = s.regs
    ∧ (update_user_wallet_balance s u amt ty ref).1.cache = s.cache
    ∧ (update_user_wallet_balance s u amt ty ref).1.nextRegId = s.nextRegId
    ∧ (update_user_wallet_balance s u amt ty ref).1.adminUid = s.adminUid := by
  unfold update_user_wallet_balance
  cases ty with
  | credit => exact ⟨rfl, rfl, rfl, rfl, rfl⟩
  | debit =>
    dsimp only
    split
    · exact ⟨rfl, rfl, rfl, rfl, rfl⟩
    · exact ⟨rfl, rfl, rfl, rfl, rfl⟩

theorem get_wallet_fields (s : SysState) (u : Nat) :
    (get_user_wallet_balance s u).1.matchSlots = s.matchSlots
    ∧ (get_user_wallet_balance s u).1.regs = s.regs
    ∧ (get_user_wallet_balance s u).1.cache = s.cache
    ∧ (get_user_wallet_balance s u).1.nextRegId = s.nextRegId
    ∧ (get_user_wallet_balance s u).1.adminUid = s.adminUid := by
  unfold get_user_wallet_balance
  cases s.wallets.lookup u with
  | some b => exact ⟨rfl, rfl, rfl, rfl, rfl⟩
  | none => exact ⟨rfl, rfl, rfl, rfl, rfl⟩

theorem register_state_cases (s : SysState) (m u : Nat) (now : ℤ) :
    (register_for_match s m u now).1.matchSlots = s.matchSlots
    ∧ ((register_for_match s m u now).1.regs = s.regs
       ∨ ∃ cfg : MatchSlotCfg, s.matchSlots.lookup m = some cfg
           ∧ regCountL s.regs m < cfg.max_players
           ∧ ∃ r : Registration, r.matchId = m ∧ r.status = RegStatus.registered
               ∧ (register_for_match s m u now).1.regs = s.regs ++ [r]) := by
  cases hcfg : s.matchSlots.lookup m with
  | none =>
    rw [register_slotNotFound hcfg]
    exact ⟨rfl, Or.inl rfl⟩
  | some cfg =>
    cases hopen : is_match_open_for_registration cfg.time now with
    | false =>
      rw [register_windowClosed hcfg hopen]
      exact ⟨rfl, Or.inl rfl⟩
    | true =>
      by_cases hcap : cfg.max_players ≤ regCount s m
      · rw [register_full hcfg hopen hcap]
        exact ⟨rfl, Or.inl rfl⟩
      · have hcap2 : regCount s m < cfg.max_players := Nat.not_le.1 hcap
        by_cases hbal : (s.wallets.lookup u).getD 0 < cfg.entry
        · rw [register_insufficient hcfg hopen hcap2 hbal]
          exact ⟨(get_wallet_fields s u).1, Or.inl (get_wallet_fields s u).2.1⟩
        · rw [register_proceed hcfg hopen hcap2 (not_lt.1 hbal)]
          dsimp only
          cases hslot : get_next_available_slot s.cache m with
          | some n =>
            exact ⟨rfl, Or.inr ⟨cfg, rfl, hcap2, ⟨_, rfl, rfl, rfl⟩⟩⟩
          | none =>
            cases hc : s.cache.lookup m with
            | none => exact ⟨rfl, Or.inr ⟨cfg, rfl, hcap2, ⟨_, rfl, rfl, rfl⟩⟩⟩
            | some info =>
              dsimp only
              by_cases he : info.booked_slots.isEmpty
              · rw [if_pos he]
                exact ⟨rfl, Or.inr ⟨cfg, rfl, hcap2, ⟨_, rfl, rfl, rfl⟩⟩⟩
              · rw [if_neg he]
                exact ⟨rfl, Or.inr ⟨cfg, rfl, hcap2, ⟨_, rfl, rfl, rfl⟩⟩⟩

theorem cancel_state_cases (s : SysState) (rid uid : Nat) (adm : Option Nat) :
    (update_registration_status s rid uid RegStatus.canceled adm).1.matchSlots = s.matchSlots
    ∧ ((update_registration_status s rid uid RegStatus.canceled adm).1.regs = s.regs
       ∨ (update_registration_status s rid uid RegStatus.canceled adm).1.regs =
           s.regs.map (fun r =>
             if r.regId = rid then {r with status := RegStatus.canceled} else r)) := by
  unfold update_registration_status
  cases hf : s.regs.find? (fun r => decide (r.regId = rid)) with
  | none => exact ⟨rfl, Or.inl rfl⟩
  | some reg =>
    dsimp only
    by_cases hauth : (!(is_admin s adm || decide (reg.leaderUid = uid))) = true
    · rw [if_pos hauth]
      exact ⟨rfl, Or.inl rfl⟩
    · rw [if_neg hauth]
      by_cases hst : reg.status = RegStatus.canceled ∧ RegStatus.canceled = RegStatus.canceled
      · rw [if_pos hst]
        exact ⟨rfl, Or.inl rfl⟩
      · rw [if_neg hst, if_pos rfl]
        by_cases hrel : reg.matchId ≠ 0 ∧ truthySlot reg.slotNumber = true
        · rw [if_pos hrel]
          by_cases hfee : (0 : ℤ) < reg.entryFee
          · rw [if_pos hfee]
            refine ⟨(update_wallet_fields _ _ _ _ _).1.trans rfl,
              Or.inr ((update_wallet_fields _ _ _ _ _).2.1.trans rfl)⟩
          · rw [if_neg hfee]
            exact ⟨rfl, Or.inr rfl⟩
        · rw [if_neg hrel]
          by_cases hfee : (0 : ℤ) < reg.entryFee
          · rw [if_pos hfee]
            refine ⟨(update_wallet_fields _ _ _ _ _).1.trans rfl,
              Or.inr ((update_wallet_fields _ _ _ _ _).2.1.trans rfl)⟩
          · rw [if_neg hfee]
            exact ⟨rfl, Or.inr rfl⟩

theorem delete_state_cases (s : SysState) (rid uid : Nat) (adm : Option Nat) :
    (delete_registration s rid uid adm).1.matchSlots = s.matchSlots
    ∧ ((delete_registration s rid uid adm).1.regs = s.regs
       ∨ (delete_registration s rid uid adm).1.regs =
           s.regs.filter (fun r => !(decide (r.regId = rid)))) := by
  unfold delete_registration
  cases hf : s.regs.find? (fun r => decide (r.regId = rid)) with
  | none => exact ⟨rfl, Or.inl rfl⟩
  | some reg =>
    dsimp only
    by_cases hauth : (!(is_admin s adm || decide (reg.leaderUid = uid))) = true
    · rw [if_pos hauth]
      exact ⟨rfl, Or.inl rfl⟩
    · rw [if_neg hauth]
      by_cases hrel : reg.matchId ≠ 0 ∧ truthySlot reg.slotNumber = true
          ∧ reg.status ≠ RegStatus.canceled
      · rw [if_pos hrel]
        exact ⟨rfl, Or.inr rfl⟩
      · rw [if_neg hrel]
        exact ⟨rfl, Or.inr rfl⟩

theorem reset_state_eq (s : SysState) (now : ℤ) :
    (reset_daily_slots s now).matchSlots = s.matchSlots
    ∧ (reset_daily_slots s now).regs = s.regs.filterMap (resetOneReg now) := by
  unfold reset_daily_slots
  exact ⟨rfl, rfl⟩

theorem step_matchSlots {s t : SysState} (h : Step s t) : t.matchSlots = s.matchSlots := by
  cases h with
  | register m u now => exact (register_state_cases s m u now).1
  | cancel rid uid adm => exact (cancel_state_cases s rid uid adm).1
  | delete rid uid adm => exact (delete_state_cases s rid uid adm).1
  | reset now => exact (reset_state_eq s now).1

theorem capOKb_of_le {s t : SysState} (hm : t.matchSlots = s.matchSlots)
    (hle : ∀ m : Nat, regCountL t.regs m ≤ regCountL s.regs m)
    (hok : capOKb s = true) : capOKb t = true := by
  unfold capOKb at *
  rw [hm, List.all_eq_true]
  rw [List.all_eq_true] at hok
  intro p hp
  have h2 := hok p hp
  simp only [decide_eq_true_eq] at *
  exact le_trans (hle p.1) h2

theorem regCountL_cancelmap_le (l : List Registration) (rid m : Nat) :
    regCountL (l.map (fun r =>
      if r.regId = rid then {r with status := RegStatus.canceled} else r)) m ≤
    regCountL l m := by
  apply length_filter_map_le
  intro a ha
  by_cases h : a.regId = rid
  · rw [if_pos h] at ha
    simp only [decide_eq_true_eq] at ha
    exact absurd ha.2 (by simp)
  · rwa [if_neg h] at ha

theorem regCountL_delfilter_le (l : List Registration) (rid m : Nat) :
    regCountL (l.filter (fun r => !(decide (r.regId = rid)))) m ≤ regCountL l m := by
  unfold regCountL
  rw [List.filter_filter]
  apply length_filter_le_of_imp
  intro a ha
  simp only [Bool.and_eq_true] at ha
  exact ha.1

theorem regCountL_reset_le (l : List Registration) (now : ℤ) (m : Nat) :
    regCountL (l.filterMap (resetOneReg now)) m ≤ regCountL l m := by
  apply length_filter_filterMap_le
  intro a b hab hb
  unfold resetOneReg at hab
  by_cases h : a.status = RegStatus.registered ∧ a.matchTime ≠ "" ∧
      is_match_completed_server_side a.matchTime now = true
  · rw [if_pos h] at hab
    by_cases hd : a.autoDeleteOnCompletion.getD true = true
    · rw [if_pos hd] at hab
      exact absurd hab (by simp)
    · rw [if_neg hd] at hab
      have : b = {a with status := RegStatus.completed} := by
        injection hab with h2
        exact h2.symm
      subst this
      simp only [decide_eq_true_eq] at hb
      exact absurd hb.2 (by simp)
  · rw [if_neg h] at hab
    have : b = a := by injection hab with h2; exact h2.symm
    subst this
    exact hb

theorem step_preserves_capOKb {s t : SysState}
    (hnd : (s.matchSlots.map Prod.fst).Nodup)
    (hok : capOKb s = true) (h : Step s t) : capOKb t = true := by
  cases h with
  | register m u now =>
    obtain ⟨hm, hr⟩ := register_state_cases s m u now
    rcases hr with hr | ⟨cfg, hcfg, hcap, r, hrm, hrs, hr⟩
    · exact capOKb_of_le hm (fun k => by rw [hr]) hok
    · unfold capOKb
      rw [hm, List.all_eq_true]
      intro p hp
      simp only [decide_eq_true_eq]
      rw [hr, regCountL_append]
      unfold capOKb at hok
      rw [List.all_eq_true] at hok
      have hple := hok p hp
      simp only [decide_eq_true_eq] at hple
      by_cases hpm : r.matchId = p.1 ∧ r.status = RegStatus.registered
      · have hp1 : p.1 = m := by rw [← hpm.1, hrm]
        have hlk : s.matchSlots.lookup p.1 = some p.2 := by
          apply lookup_eq_of_mem_of_nodup hnd
          obtain ⟨p1, p2⟩ := p
          exact hp
        rw [hp1, hcfg] at hlk
        have hc2 : cfg = p.2 := by injection hlk
        rw [if_pos hpm]
        have hlt : regCountL s.regs p.1 < p.2.max_players := by
          rw [hp1, ← hc2]
          exact hcap
        omega
      · rw [if_neg hpm]
        omega
  | cancel rid uid adm =>
    obtain ⟨hm, hr⟩ := cancel_state_cases s rid uid adm
    rcases hr with hr | hr
    · exact capOKb_of_le hm (fun k => by rw [hr]) hok
    · exact capOKb_of_le hm (fun k => by rw [hr]; exact regCountL_cancelmap_le s.regs rid k) hok
  | delete rid uid adm =>
    obtain ⟨hm, hr⟩ := delete_state_cases s rid uid adm
    rcases hr with hr | hr
    · exact capOKb_of_le hm (fun k => by rw [hr]) hok
    · exact capOKb_of_le hm (fun k => by rw [hr]; exact regCountL_delfilter_le s.regs rid k) hok
  | reset now =>
    obtain ⟨hm, hr⟩ := reset_state_eq s now
    exact capOKb_of_le hm (fun k => by rw [hr]; exact regCountL_reset_le s.regs now k) hok

theorem steps_preserve_capOKb {s t : SysState}
    (hnd : (s.matchSlots.map Prod.fst).Nodup)
    (hok : capOKb s = true) (hsteps : Steps s t) :
    t.matchSlots = s.matchSlots ∧ capOKb t = true := by
  induction hsteps with
  | refl => exact ⟨rfl, hok⟩
  | tail hpre hstep ih =>
    obtain ⟨hm, hok2⟩ := ih
    refine ⟨(step_matchSlots hstep).trans hm, ?_⟩
    exact step_preserves_capOKb (hm ▸ hnd) hok2 hstep

/-! ## Claim theorems -/

/-- C1: for every match, after any sequence of the four operations
(registration, cancellation, deletion, daily reset) starting from a state
satisfying the capacity bound (with the configured match ids unique, as
Firestore document ids are), the number of `status == registered`
registrations of each match never exceeds its capacity; and a registration
attempt on a match slot whose count has reached capacity, in an open window,
is rejected with the full reason and leaves the whole state — in particular
the registration store — unchanged. -/
theorem C1_capacity_invariant (s t : SysState)
    (hnd : (s.matchSlots.map Prod.fst).Nodup)
    (hok : capOKb s = true) (hsteps : Steps s t)
    (m u : Nat) (now : ℤ) (cfg : MatchSlotCfg)
    (hcfg : t.matchSlots.lookup m = some cfg)
    (hopen : is_match_open_for_registration cfg.time now = true)
    (hfull : cfg.max_players ≤ regCount t m) :
    capOKb t = true ∧ register_for_match t m u now = (t, some RegReason.full) :=
  ⟨(steps_preserve_capOKb hnd hok hsteps).2, register_full hcfg hopen hfull⟩

/-- Witness for C1: after user 7 fills the one-seat match of `W1`, the
capacity bound still holds and user 8's attempt is rejected as full with no
state change. -/
theorem C1_capacity_invariant_witness :
    capOKb W1f = true ∧ register_for_match W1f 1 8 46800 = (W1f, some RegReason.full) :=
  C1_capacity_invariant W1 W1f (by decide) (by decide)
    (Relation.ReflTransGen.single (Step.register W1 1 7 46800))
    1 8 46800 ⟨"14:00", "solo", 1, 0, true⟩ (by decide) (by decide) (by decide)

/-- C2 counterexample: in `C2s` user 7 already holds a `status == registered`
registration for match 1, yet a second attempt by the same user is accepted
(no duplicate rejection exists in `register_for_match`) and afterwards two
`status == registered` registrations exist for the (7, 1) pair. -/
theorem C2_counterexample :
    userRegCount C2s 7 1 = 1
    ∧ (register_for_match C2s 1 7 46800).2 = none
    ∧ userRegCount (register_for_match C2s 1 7 46800).1 7 1 = 2 := by decide

/-- C2 (amended): the transactional registration path performs no duplicate
check at all: whenever the slot exists, the window is open, capacity is not
reached, the wallet covers the fee and the allocator yields a seat, the
attempt succeeds and appends one more `status == registered` registration for
the (user, match) pair — regardless of how many the user already holds. -/
theorem C2_no_duplicate_check (s : SysState) (m u : Nat) (now : ℤ)
    (cfg : MatchSlotCfg) (k : Nat)
    (hcfg : s.matchSlots.lookup m = some cfg)
    (hopen : is_match_open_for_registration cfg.time now = true)
    (hcap : regCount s m < cfg.max_players)
    (hbal : cfg.entry ≤ (s.wallets.lookup u).getD 0)
    (hslot : get_next_available_slot s.cache m = some k) :
    (register_for_match s m u now).2 = none
    ∧ userRegCount (register_for_match s m u now).1 u m = userRegCount s u m + 1 := by
  rw [register_proceed hcfg hopen hcap hbal]
  dsimp only
  rw [hslot]
  dsimp only
  refine ⟨rfl, ?_⟩
  unfold userRegCount
  dsimp only
  rw [List.filter_append, List.length_append]
  congr 1
  simp

/-- Witness for C2: instantiating the amended theorem at `C2s`, where user 7
is already registered, adds a second registration for the pair. -/
theorem C2_no_duplicate_check_witness :
    (register_for_match C2s 1 7 46800).2 = none
    ∧ userRegCount (register_for_match C2s 1 7 46800).1 7 1 = userRegCount C2s 7 1 + 1 :=
  C2_no_duplicate_check C2s 1 7 46800 ⟨"14:00", "solo", 2, 0, true⟩ 2
    (by decide) (by decide) (by decide) (by decide) (by decide)

/-! ## Scan lemmas for the seat allocator -/

theorem range'_find?_none_iff (p : Nat → Bool) (st n : Nat) :
    (List.range' st n).find? p = none ↔ ∀ j, st ≤ j → j < st + n → p j = false := by
  rw [List.find?_eq_none]
  constructor
  · intro h j h1 h2
    have := h j (List.mem_range'_1.2 ⟨h1, h2⟩)
    simpa using this
  · intro h x hx
    have := h x (List.mem_range'_1.1 hx).1 (List.mem_range'_1.1 hx).2
    simp [this]

theorem range'_find?_some (p : Nat → Bool) (st n k : Nat)
    (h : (List.range' st n).find? p = some k) :
    st ≤ k ∧ k < st + n ∧ p k = true ∧ ∀ j, st ≤ j → j < k → p j = false := by
  induction n generalizing st with
  | zero => simp [List.range'] at h
  | succ n ih =>
    rw [List.range'_succ] at h
    by_cases hp : p st
    · rw [List.find?_cons_of_pos _ hp] at h
      injection h with h
      subst h
      exact ⟨le_refl _, by omega, hp, fun j h1 h2 => absurd h1 (by omega)⟩
    · rw [List.find?_cons_of_neg _ hp] at h
      obtain ⟨h1, h2, h3, h4⟩ := ih (st + 1) h
      refine ⟨by omega, by omega, h3, ?_⟩
      intro j hj1 hj2
      by_cases hje : j = st
      · subst hje
        simpa using hp
      · exact h4 j (by omega) hj2

/-- C4 counterexample: in the cache `C4c` the single match has capacity 1
while its occupied list holds only the out-of-range seat 2, so the occupied
list's size equals the capacity and yet `get_next_available_slot` returns
seat 1 instead of reporting full — the claimed "full iff occupied-set size
equals capacity" equivalence fails on such cache states. -/
theorem C4_counterexample :
    get_next_available_slot C4c 1 = some 1
    ∧ C4c.lookup 1 = some ⟨1, [2]⟩
    ∧ ([2] : List Nat).length = 1 := by decide

/-- C4 (amended): for every cache state knowing the match,
`get_next_available_slot` returns the smallest seat of `1..capacity` not in
the occupied list, and returns no seat exactly when every seat of
`1..capacity` is occupied; the claimed size characterisation — no seat iff
the occupied list's size equals the capacity — holds under the additional
hypotheses that the occupied list is duplicate-free and contained in
`[1, capacity]` (true of lists the allocator itself produced, but not of
every cache state). -/
theorem C4_next_seat_spec (c : Cache) (m : Nat) (info : SlotInfo)
    (hc : c.lookup m = some info) :
    (∀ k, get_next_available_slot c m = some k →
        1 ≤ k ∧ k ≤ info.max_players ∧ info.booked_slots.contains k = false
        ∧ ∀ j, 1 ≤ j → j < k → info.booked_slots.contains j = true)
    ∧ (get_next_available_slot c m = none ↔
        ∀ j, 1 ≤ j → j ≤ info.max_players → info.booked_slots.contains j = true)
    ∧ (info.booked_slots.Nodup →
        (∀ x ∈ info.booked_slots, 1 ≤ x ∧ x ≤ info.max_players) →
        (get_next_available_slot c m = none ↔
          info.booked_slots.length = info.max_players)) := by
  unfold get_next_available_slot
  rw [hc]
  have hmem : ∀ j : Nat, info.booked_slots.contains j = true ↔ j ∈ info.booked_slots := by
    intro j
    simp
  refine ⟨?_, ?_, ?_⟩
  · intro k hk
    obtain ⟨h1, h2, h3, h4⟩ := range'_find?_some _ 1 info.max_players k hk
    refine ⟨h1, by omega, by simpa using h3, ?_⟩
    intro j hj1 hj2
    have := h4 j hj1 hj2
    simpa using this
  · rw [range'_find?_none_iff]
    constructor
    · intro h j h1 h2
      have := h j h1 (by omega)
      simpa using this
    · intro h j h1 h2
      have := h j h1 (by omega)
      simpa using this
  · intro hnd hbound
    rw [range'_find?_none_iff]
    have hIcc : (Finset.Icc 1 info.max_players).card = info.max_players := by
      rw [Nat.card_Icc]
      omega
    constructor
    · intro hall
      have hsub1 : Finset.Icc 1 info.max_players ⊆ info.booked_slots.toFinset := by
        intro j hj
        rw [List.mem_toFinset]
        have hj2 := Finset.mem_Icc.1 hj
        have := hall j hj2.1 (by omega)
        simp only [Bool.not_eq_true'] at this
        exact (hmem j).1 (by simpa using this)
      have hsub2 : info.booked_slots.toFinset ⊆ Finset.Icc 1 info.max_players := by
        intro x hx
        rw [List.mem_toFinset] at hx
        exact Finset.mem_Icc.2 ⟨(hbound x hx).1, (hbound x hx).2⟩
      have heq : info.booked_slots.toFinset = Finset.Icc 1 info.max_players :=
        le_antisymm hsub2 hsub1
      calc info.booked_slots.length
          = info.booked_slots.toFinset.card := (List.toFinset_card_of_nodup hnd).symm
        _ = (Finset.Icc 1 info.max_players).card := by rw [heq]
        _ = info.max_players := hIcc
    · intro hlen j h1 h2
      have hsub2 : info.booked_slots.toFinset ⊆ Finset.Icc 1 info.max_players := by
        intro x hx
        rw [List.mem_toFinset] at hx
        exact Finset.mem_Icc.2 ⟨(hbound x hx).1, (hbound x hx).2⟩
      have hcard : (Finset.Icc 1 info.max_players).card ≤ info.booked_slots.toFinset.card := by
        rw [hIcc, List.toFinset_card_of_nodup hnd, hlen]
      have heq : info.booked_slots.toFinset = Finset.Icc 1 info.max_players :=
        Finset.eq_of_subset_of_card_le hsub2 hcard
      have hjmem : j ∈ info.booked_slots.toFinset := by
        rw [heq]
        exact Finset.mem_Icc.2 ⟨h1, by omega⟩
      rw [List.mem_toFinset] at hjmem
      simp [hjmem]

/-- Witness for C4: on a fully and properly occupied capacity-3 match, the
allocator reports no seat exactly because the occupied list's size equals the
capacity. -/
theorem C4_next_seat_spec_witness :
    get_next_available_slot [(1, SlotInfo.mk 3 [1, 2, 3])] 1 = none ↔
      ([1, 2, 3] : List Nat).length = 3 :=
  (C4_next_seat_spec [(1, SlotInfo.mk 3 [1, 2, 3])] 1 (SlotInfo.mk 3 [1, 2, 3])
    (by decide)).2.2 (by decide) (by decide)

/-- C3 counterexample: in `C3s` the match configuration admits one player and
no registration exists, but the cache's occupied list is (stale-)full, so the
allocator reports no seat; `register_for_match` still persists a registration
— carrying a null seat number instead of an integer in `[1, capacity]` — and
answers the generic internal error of the `except Exception` handler, not a
dedicated no-seats rejection. -/
theorem C3_counterexample :
    (register_for_match C3s 1 7 46800).2 = some RegReason.unexpected
    ∧ (register_for_match C3s 1 7 46800).1.regs.length = 1
    ∧ (register_for_match C3s 1 7 46800).1.regs.map Registration.slotNumber = [none] := by
  decide

/-- C3 (amended): once the guards pass, `register_for_match` persists the
registration no matter what the Slot Allocator returned.  When the allocator
yields a seat, the persisted registration carries it and it lies in
`[1, capacity]` of the cache entry; when the allocator reports no seat, there
is no no-seats rejection: the registration is persisted with a null seat, and
(whenever the match's occupied list is non-empty) the request then fails with
the generic internal error, after the write. -/
theorem C3_seat_persistence (s : SysState) (m u : Nat) (now : ℤ)
    (cfg : MatchSlotCfg)
    (hcfg : s.matchSlots.lookup m = some cfg)
    (hopen : is_match_open_for_registration cfg.time now = true)
    (hcap : regCount s m < cfg.max_players)
    (hbal : cfg.entry ≤ (s.wallets.lookup u).getD 0) :
    (∀ k, get_next_available_slot s.cache m = some k →
        (register_for_match s m u now).2 = none
        ∧ (register_for_match s m u now).1.regs =
            s.regs ++ [⟨s.nextRegId, m, cfg.mtype, cfg.time, u, RegStatus.registered,
                        cfg.entry, some k, none, "", ""⟩]
        ∧ ∃ info, s.cache.lookup m = some info ∧ 1 ≤ k ∧ k ≤ info.max_players)
    ∧ (get_next_available_slot s.cache m = none →
        (register_for_match s m u now).1.regs =
          s.regs ++ [⟨s.nextRegId, m, cfg.mtype, cfg.time, u, RegStatus.registered,
                      cfg.entry, none, none, "", ""⟩]
        ∧ ∀ info, s.cache.lookup m = some info → info.booked_slots ≠ [] →
            (register_for_match s m u now).2 = some RegReason.unexpected) := by
  rw [register_proceed hcfg hopen hcap hbal]
  dsimp only
  constructor
  · intro k hk
    rw [hk]
    dsimp only
    refine ⟨rfl, rfl, ?_⟩
    unfold get_next_available_slot at hk
    cases hcl : s.cache.lookup m with
    | none =>
      rw [hcl] at hk
      exact absurd hk (by simp)
    | some info =>
      rw [hcl] at hk
      obtain ⟨h1, h2, _, _⟩ := range'_find?_some _ 1 info.max_players k hk
      exact ⟨info, rfl, h1, by omega⟩
  · intro hk
    rw [hk]
    dsimp only
    cases hcl : s.cache.lookup m with
    | none =>
      refine ⟨rfl, ?_⟩
      intro info hinfo
      exact absurd hinfo (by simp)
    | some info =>
      dsimp only
      by_cases he : info.booked_slots.isEmpty
      · rw [if_pos he]
        refine ⟨rfl, ?_⟩
        intro info2 hinfo2 hne
        have hi : info2 = info := by
          injection hinfo2 with h
          exact h.symm
        subst hi
        rw [List.isEmpty_iff] at he
        exact absurd he hne
      · rw [if_neg he]
        exact ⟨rfl, fun _ _ _ => rfl⟩

/-- Witness for C3: on `C3s` the allocator reports no seat, yet the
registration is persisted with a null seat and the request ends in the
generic internal error. -/
theorem C3_seat_persistence_witness :
    (register_for_match C3s 1 7 46800).1.regs =
      C3s.regs ++ [⟨0, 1, "solo", "14:00", 7, RegStatus.registered, 0, none, none, "", ""⟩]
    ∧ (register_for_match C3s 1 7 46800).2 = some RegReason.unexpected :=
  ⟨((C3_seat_persistence C3s 1 7 46800 ⟨"14:00", "solo", 1, 0, true⟩
      (by decide) (by decide) (by decide) (by decide)).2 (by decide)).1,
   ((C3_seat_persistence C3s 1 7 46800 ⟨"14:00", "solo", 1, 0, true⟩
      (by decide) (by decide) (by decide) (by decide)).2 (by decide)).2
     ⟨1, [1]⟩ (by decide) (by decide)⟩

/-- C5 counterexample: the cache `C5c` knows match 1, whose seat 1 is
already booked; booking seat 1 again leaves the cache unchanged but returns
`False` — the same failure indication as an unknown match id — instead of
the no-op success the claim describes. -/
theorem C5_counterexample :
    book_slot_in_memory C5c 1 1 = (C5c, false)
    ∧ C5c.lookup 1 = some ⟨2, [1]⟩ := by decide

/-- C5 (amended): `book_slot_in_memory` leaves the cache unchanged and
reports failure (`False`) both when the match id is unknown AND when the
seat is already in the occupied list — the latter is a no-op but not a
reported success; it reports success exactly when the match is known and the
seat was free, in which case the seat is inserted (the occupied list stays
sorted, its membership grows by exactly the booked seat) and every other
match's entry is untouched. -/
theorem C5_book_spec (c : Cache) (m n : Nat) :
    (c.lookup m = none → book_slot_in_memory c m n = (c, false))
    ∧ (∀ info, c.lookup m = some info →
        (info.booked_slots.contains n = true → book_slot_in_memory c m n = (c, false))
        ∧ (info.booked_slots.contains n = false →
            (book_slot_in_memory c m n).2 = true
            ∧ (book_slot_in_memory c m n).1.lookup m =
                some ⟨info.max_players, pySort (info.booked_slots ++ [n])⟩
            ∧ (∀ m2, m2 ≠ m → (book_slot_in_memory c m n).1.lookup m2 = c.lookup m2)
            ∧ (∀ j : Nat, j ∈ pySort (info.booked_slots ++ [n]) ↔
                 j ∈ info.booked_slots ∨ j = n)
            ∧ (pySort (info.booked_slots ++ [n])).Sorted (· ≤ ·))) := by
  unfold book_slot_in_memory
  constructor
  · intro h
    rw [h]
  · intro info h
    rw [h]
    dsimp only
    constructor
    · intro hb
      rw [if_pos hb]
    · intro hb
      rw [if_neg (by rw [hb]; simp)]
      refine ⟨rfl, ?_, ?_, ?_, ?_⟩
      · exact lookup_setAssoc_self c m _
      · intro m2 hm2
        exact lookup_setAssoc_ne c m m2 _ hm2
      · intro j
        unfold pySort
        rw [(List.perm_insertionSort (· ≤ ·) (info.booked_slots ++ [n])).mem_iff]
        simp
      · exact List.sorted_insertionSort (· ≤ ·) (info.booked_slots ++ [n])

/-- Witness for C5: booking the already-booked seat 1 of `C5c` is a
no-op failure; booking the free seat 2 succeeds. -/
theorem C5_book_spec_witness :
    book_slot_in_memory C5c 1 1 = (C5c, false)
    ∧ (book_slot_in_memory C5c 1 2).2 = true :=
  ⟨((C5_book_spec C5c 1 1).2 ⟨2, [1]⟩ (by decide)).1 (by decide),
   (((C5_book_spec C5c 1 2).2 ⟨2, [1]⟩ (by decide)).2 (by decide)).1⟩

/-! ## Time-policy lemmas -/

theorem dayStart_bounds (now : ℤ) : dayStart now ≤ now ∧ now < dayStart now + 86400 := by
  unfold dayStart
  rw [Int.fdiv_eq_ediv _ (by norm_num)]
  have h1 := Int.ediv_add_emod now 86400
  have h2 := Int.emod_nonneg now (by norm_num : (86400 : ℤ) ≠ 0)
  have h3 := Int.emod_lt_of_pos now (by norm_num : (0 : ℤ) < 86400)
  omega

/-- C6: the time policy is total and fail-closed — an unparsable scheduled
time string makes `is_match_open_for_registration` (and the completion
check) answer the closed/false value instead of raising — and, for a valid
`HH:MM` string, `nextOccurrence` is at or after `now`, the window is closed
exactly when `now` is within 20 minutes before that next occurrence and open
strictly earlier, while completion never rolls to tomorrow: it holds exactly
when today's nominal occurrence has been reached and `now` is at least 60
minutes past it. -/
theorem C6_time_policy (mt : String) (now : ℤ) :
    (parseMatchTime mt = none →
      is_match_open_for_registration mt now = false
      ∧ is_match_completed_server_side mt now = false)
    ∧ ∀ h m : Nat, parseMatchTime mt = some (h, m) →
        now ≤ nextOccurrence h m now
        ∧ (is_match_open_for_registration mt now = false ↔
            nextOccurrence h m now - now ≤ 1200)
        ∧ (is_match_open_for_registration mt now = true ↔
            now + 1200 < nextOccurrence h m now)
        ∧ (is_match_completed_server_side mt now = true ↔
            todayOccurrence h m now ≤ now ∧ todayOccurrence h m now + 3600 ≤ now) := by
  constructor
  · intro hp
    unfold is_match_open_for_registration is_match_completed_server_side
    rw [hp]
    exact ⟨rfl, rfl⟩
  · intro h m hp
    have hday := dayStart_bounds now
    have hnn : (0 : ℤ) ≤ 3600 * (h : ℤ) + 60 * (m : ℤ) := by positivity
    refine ⟨?_, ?_, ?_, ?_⟩
    · unfold nextOccurrence todayOccurrence
      dsimp only
      split
      · omega
      · omega
    · unfold is_match_open_for_registration
      rw [hp]
      dsimp only
      rw [decide_eq_false_iff_not]
      omega
    · unfold is_match_open_for_registration
      rw [hp]
      dsimp only
      rw [decide_eq_true_eq]
      omega
    · unfold is_match_completed_server_side
      rw [hp]
      dsimp only
      by_cases hgt : todayOccurrence h m now > now
      · rw [if_pos (by simpa using hgt)]
        constructor
        · intro hfalse
          exact absurd hfalse (by simp)
        · intro hc
          omega
      · rw [if_neg (by simpa using hgt)]
        rw [decide_eq_true_eq]
        omega

/-- Witness for C6: the scheduled time `"14:30"` at `now` = 13:00 on day 0. -/
theorem C6_time_policy_witness :
    (46800 : ℤ) ≤ nextOccurrence 14 30 46800
    ∧ (is_match_open_for_registration "14:30" 46800 = false ↔
        nextOccurrence 14 30 46800 - 46800 ≤ 1200)
    ∧ (is_match_open_for_registration "14:30" 46800 = true ↔
        46800 + 1200 < nextOccurrence 14 30 46800)
    ∧ (is_match_completed_server_side "14:30" 46800 = true ↔
        todayOccurrence 14 30 46800 ≤ 46800 ∧ todayOccurrence 14 30 46800 + 3600 ≤ 46800) :=
  (C6_time_policy "14:30" 46800).2 14 30 (by decide)

/-- C7: the wallet ledger rejects any debit that would drive the balance
negative — returning the failure flag (the caught
`ValueError("Insufficient balance for debit transaction.")`) with the whole
state, balance and transaction log included, unchanged — and every
successful mutation, debit or credit, writes the new balance and appends
exactly one transaction log entry carrying that resulting balance. -/
theorem C7_wallet_ledger (s : SysState) (u : Nat) (amt : ℤ) (ref : Option Nat) :
    ((s.wallets.lookup u).getD 0 - amt < 0 →
      update_user_wallet_balance s u amt TxnType.debit ref = (s, false))
    ∧ (0 ≤ (s.wallets.lookup u).getD 0 - amt →
      update_user_wallet_balance s u amt TxnType.debit ref =
        ({s with
            wallets := setAssoc s.wallets u ((s.wallets.lookup u).getD 0 - amt),
            transactions := s.transactions ++
              [⟨u, amt, TxnType.debit, (s.wallets.lookup u).getD 0 - amt, ref⟩]}, true))
    ∧ update_user_wallet_balance s u amt TxnType.credit ref =
        ({s with
            wallets := setAssoc s.wallets u ((s.wallets.lookup u).getD 0 + amt),
            transactions := s.transactions ++
              [⟨u, amt, TxnType.credit, (s.wallets.lookup u).getD 0 + amt, ref⟩]}, true) :=
  ⟨fun h => update_wallet_debit_fail (by omega),
   fun h => update_wallet_debit_ok (by omega),
   update_wallet_credit s u amt ref⟩

/-- Witness for C7: debiting 50 from user 7's balance of 30 in `W7` is
rejected with no mutation. -/
theorem C7_wallet_ledger_witness :
    update_user_wallet_balance W7 7 50 TxnType.debit none = (W7, false) :=
  (C7_wallet_ledger W7 7 50 none).1 (by decide)

/-- C9 counterexample: `C9s` holds one `status == completed` registration
whose seat 1 is still in the cache's occupied list; hard-deleting it DOES
release the seat (the code only spares `status == canceled` registrations),
so the occupied set changes, contrary to the claim that deleting a completed
registration leaves it unchanged. -/
theorem C9_counterexample :
    C9s.regs.map Registration.status = [RegStatus.completed]
    ∧ (delete_registration C9s 5 7 none).2 = none
    ∧ C9s.cache.lookup 1 = some ⟨2, [1]⟩
    ∧ (delete_registration C9s 5 7 none).1.cache.lookup 1 = some ⟨2, []⟩ := by decide

/-- C9 (amended): `delete_registration` releases the seat exactly when the
registration's status is NOT `canceled` (with truthy match id and seat) — so
a still-`registered` registration's seat is released, a `canceled` one's is
never double-released, but a `completed` registration's seat is ALSO
released; in every case the document is removed. -/
theorem C9_delete_release (s : SysState) (rid uid : Nat) (adm : Option Nat)
    (reg : Registration)
    (hfind : s.regs.find? (fun r => decide (r.regId = rid)) = some reg)
    (hauth : (is_admin s adm || decide (reg.leaderUid = uid)) = true) :
    (reg.status = RegStatus.canceled →
      delete_registration s rid uid adm =
        ({s with regs := s.regs.filter (fun r => !(decide (r.regId = rid)))}, none))
    ∧ (reg.status ≠ RegStatus.canceled → reg.matchId ≠ 0 →
        truthySlot reg.slotNumber = true →
      delete_registration s rid uid adm =
        ({s with
            cache := (release_slot_in_memory s.cache reg.matchId (reg.slotNumber.getD 0)).1,
            regs := s.regs.filter (fun r => !(decide (r.regId = rid)))}, none)) := by
  unfold delete_registration
  rw [hfind]
  dsimp only
  rw [if_neg (by simp [hauth])]
  constructor
  · intro hst
    rw [if_neg (by simp [hst])]
  · intro h1 h2 h3
    rw [if_pos ⟨h2, h3, h1⟩]

/-- Witness for C9: deleting the completed registration of `C9s` releases
seat 1 and removes the document. -/
theorem C9_delete_release_witness :
    delete_registration C9s 5 7 none =
      ({C9s with
          cache := (release_slot_in_memory C9s.cache 1 1).1,
          regs := C9s.regs.filter (fun r => !(decide (r.regId = 5)))}, none) :=
  (C9_delete_release C9s 5 7 none
      ⟨5, 1, "solo", "14:00", 7, RegStatus.completed, 0, some 1, none, "", ""⟩
      (by decide) (by decide)).2 (by decide) (by decide) (by decide)

/-- `resetOneReg` never changes the document id. -/
theorem resetOneReg_regId (now : ℤ) (r rr : Registration)
    (h : resetOneReg now r = some rr) : rr.regId = r.regId := by
  unfold resetOneReg at h
  by_cases hc : r.status = RegStatus.registered ∧ r.matchTime ≠ "" ∧
      is_match_completed_server_side r.matchTime now = true
  · rw [if_pos hc] at h
    by_cases hd : r.autoDeleteOnCompletion.getD true = true
    · rw [if_pos hd] at h
      exact absurd h (by simp)
    · rw [if_neg hd] at h
      injection h with h
      rw [← h]
  · rw [if_neg hc] at h
    injection h with h
    rw [← h]

/-- C10: during the daily reset, a `status == registered` registration of a
completed match whose document LACKS the `autoDeleteOnCompletion` field is
hard-deleted (no document with its id survives), because
`data.get('autoDeleteOnCompletion', True)` defaults to true; by contrast a
document carrying the explicit `false` preference is kept and marked
`completed`. -/
theorem C10_reset_default_delete (s : SysState) (now : ℤ) (r : Registration)
    (hmem : r ∈ s.regs)
    (hst : r.status = RegStatus.registered)
    (hcomp : is_match_completed_server_side r.matchTime now = true)
    (hnd : (s.regs.map Registration.regId).Nodup) :
    (r.autoDeleteOnCompletion = none →
      (reset_daily_slots s now).regs.filter (fun r2 => decide (r2.regId = r.regId)) = [])
    ∧ (r.autoDeleteOnCompletion = some false →
      {r with status := RegStatus.completed} ∈ (reset_daily_slots s now).regs) := by
  have hmt : r.matchTime ≠ "" := by
    intro he
    rw [he] at hcomp
    have : is_match_completed_server_side "" now = false := rfl
    rw [this] at hcomp
    exact Bool.noConfusion hcomp
  have hregs := (reset_state_eq s now).2
  constructor
  · intro hpref
    have hdrop : resetOneReg now r = none := by
      unfold resetOneReg
      rw [if_pos ⟨hst, hmt, hcomp⟩, if_pos (by rw [hpref]; rfl)]
    rw [hregs, List.filter_eq_nil_iff]
    intro x hx
    obtain ⟨y, hy, hfy⟩ := List.mem_filterMap.1 hx
    simp only [decide_eq_true_eq]
    intro hxid
    have hyid : y.regId = r.regId := by
      rw [← resetOneReg_regId now y x hfy, hxid]
    have : y = r := List.inj_on_of_nodup_map hnd hy hmem hyid
    subst this
    rw [hdrop] at hfy
    exact Option.noConfusion hfy
  · intro hpref
    have hkeep : resetOneReg now r = some {r with status := RegStatus.completed} := by
      unfold resetOneReg
      rw [if_pos ⟨hst, hmt, hcomp⟩, if_neg (by rw [hpref]; simp)]
    rw [hregs]
    exact List.mem_filterMap.2 ⟨r, hmem, hkeep⟩

/-- Witness for C10: at 16:00 the 14:00 match is completed; in `C10s` the
registration with id 5 (no auto-delete field) disappears from the store
while the one with id 6 (`autoDeleteOnCompletion = false`) survives as
`completed`. -/
theorem C10_reset_default_delete_witness :
    (reset_daily_slots C10s 57600).regs.filter (fun r2 => decide (r2.regId = 5)) = []
    ∧ ({ regId := 6, matchId := 1, matchType := "solo", matchTime := "14:00",
         leaderUid := 8, status := RegStatus.completed, entryFee := 0,
         slotNumber := some 2, autoDeleteOnCompletion := some false,
         roomCode := "", roomPassword := "" } : Registration) ∈
        (reset_daily_slots C10s 57600).regs :=
  ⟨(C10_reset_default_delete C10s 57600
      ⟨5, 1, "solo", "14:00", 7, RegStatus.registered, 0, some 1, none, "", ""⟩
      (by decide) (by decide) (by decide) (by decide)).1 (by decide),
   (C10_reset_default_delete C10s 57600
      ⟨6, 1, "solo", "14:00", 8, RegStatus.registered, 0, some 2, some false, "", ""⟩
      (by decide) (by decide) (by decide) (by decide)).2 (by decide)⟩

/-- C8 counterexample: user 7 pays the 50 entry fee from a balance of 50;
an admin-authorised cancellation that names `userId = 999` succeeds, but the
refund is credited to user 999's wallet — the code credits the REQUEST's
`user_id`, not the registration's `leaderUid` — leaving the registrant's
balance at 0 instead of the original 50. -/
theorem C8_counterexample :
    C8s.wallets.lookup 7 = some 50
    ∧ (register_for_match C8s 1 7 46800).2 = none
    ∧ (update_registration_status C8reg 0 999 RegStatus.canceled (some 99)).2 = none
    ∧ (update_registration_status C8reg 0 999 RegStatus.canceled (some 99)).1.wallets.lookup 7
        = some 0
    ∧ (update_registration_status C8reg 0 999 RegStatus.canceled (some 99)).1.wallets.lookup 999
        = some 50 := by decide

/-- C8 (amended): the refund of a cancellation goes to the wallet of the
`user_id` named in the cancellation request.  When the registrant cancels
their own paid registration (the only non-admin possibility), the fee
debited at registration is credited back to them: the net balance equals
the balance before the registration and the transaction log gains exactly
the debit/credit pair carrying the resulting balances.  An admin-authorised
request naming a different user credits that user instead (see the
counterexample). -/
theorem C8_cancel_refund (s : SysState) (m u : Nat) (now : ℤ)
    (cfg : MatchSlotCfg) (k : Nat)
    (hm0 : m ≠ 0)
    (hcfg : s.matchSlots.lookup m = some cfg)
    (hopen : is_match_open_for_registration cfg.time now = true)
    (hcap : regCount s m < cfg.max_players)
    (hbal : cfg.entry ≤ (s.wallets.lookup u).getD 0)
    (hfee : 0 < cfg.entry)
    (hslot : get_next_available_slot s.cache m = some k)
    (hfresh : ∀ r ∈ s.regs, r.regId ≠ s.nextRegId) :
    (update_registration_status (register_for_match s m u now).1 s.nextRegId u
        RegStatus.canceled none).2 = none
    ∧ (update_registration_status (register_for_match s m u now).1 s.nextRegId u
        RegStatus.canceled none).1.wallets.lookup u = some ((s.wallets.lookup u).getD 0)
    ∧ (update_registration_status (register_for_match s m u now).1 s.nextRegId u
        RegStatus.canceled none).1.transactions =
        s.transactions ++
          [⟨u, cfg.entry, TxnType.debit, (s.wallets.lookup u).getD 0 - cfg.entry, some m⟩,
           ⟨u, cfg.entry, TxnType.credit, (s.wallets.lookup u).getD 0, some s.nextRegId⟩] := by
  have hk1 : 1 ≤ k := by
    unfold get_next_available_slot at hslot
    cases hcl : s.cache.lookup m with
    | none =>
      rw [hcl] at hslot
      exact absurd hslot (by simp)
    | some info =>
      rw [hcl] at hslot
      exact (range'_find?_some _ 1 info.max_players k hslot).1
  rw [register_proceed hcfg hopen hcap hbal]
  dsimp only
  rw [hslot]
  dsimp only
  unfold update_registration_status
  have hfind : (s.regs ++ [(⟨s.nextRegId, m, cfg.mtype, cfg.time, u, RegStatus.registered,
      cfg.entry, some k, none, "", ""⟩ : Registration)]).find?
        (fun r => decide (r.regId = s.nextRegId)) =
      some ⟨s.nextRegId, m, cfg.mtype, cfg.time, u, RegStatus.registered,
        cfg.entry, some k, none, "", ""⟩ := by
    rw [List.find?_append]
    have hnone : s.regs.find? (fun r => decide (r.regId = s.nextRegId)) = none :=
      List.find?_eq_none.2 (fun x hx => by simpa using hfresh x hx)
    rw [hnone]
    simp
  rw [hfind]
  dsimp only
  rw [if_neg (by simp [is_admin])]
  rw [if_neg (by simp)]
  rw [if_pos rfl]
  have htr : m ≠ 0 ∧ truthySlot (some k) = true := by
    refine ⟨hm0, ?_⟩
    simp only [truthySlot, Option.getD_some, ne_eq, decide_eq_true_eq]
    omega
  rw [if_pos htr]
  rw [if_pos hfee]
  rw [update_wallet_credit]
  dsimp only
  refine ⟨rfl, ?_, ?_⟩
  · simp only [lookup_setAssoc_self, Option.getD_some]
    congr 1
    omega
  · simp only [lookup_setAssoc_self, Option.getD_some]
    have hb : (s.wallets.lookup u).getD 0 - cfg.entry + cfg.entry
        = (s.wallets.lookup u).getD 0 := by omega
    rw [hb, List.append_assoc]
    rfl

/-- Witness for C8: in `C8s` (balance 50, fee 50), registering and then
cancelling as user 7 restores the balance of 50 and appends exactly the
debit/credit pair. -/
theorem C8_cancel_refund_witness :
    (update_registration_status (register_for_match C8s 1 7 46800).1 0 7
        RegStatus.canceled none).2 = none
    ∧ (update_registration_status (register_for_match C8s 1 7 46800).1 0 7
        RegStatus.canceled none).1.wallets.lookup 7 = some 50
    ∧ (update_registration_status (register_for_match C8s 1 7 46800).1 0 7
        RegStatus.canceled none).1.transactions =
        C8s.transactions ++
          [⟨7, 50, TxnType.debit, 0, some 1⟩, ⟨7, 50, TxnType.credit, 50, some 0⟩] :=
  C8_cancel_refund C8s 1 7 46800 ⟨"14:00", "solo", 2, 50, true⟩ 1
    (by decide) (by decide) (by decide) (by decide) (by decide) (by decide)
    (by decide) (by decide)
